import Mathlib

/-!
Verification of `lib/simple_config.py` (SimpleConfig / fee estimation).

The Python module is shallowly embedded: Python dicts become insertion-ordered
association lists, JSON-compatible scalar values become `JVal`, fallible code
returns `Except String`, and Python floats are modelled by exact rationals
(all the constants involved, 1.5, 0.5, and the samples in the claims, are
exactly representable). Filesystem side effects (directory creation,
`save_user_config`) are outside the model; only the in-memory maps are
tracked.
-/

set_option maxHeartbeats 1000000

/-- JSON-compatible scalar configuration value, as stored in the Python
dicts.  `null` plays the role of Python `None`. -/
inductive JVal where
  | null
  | bool (b : Bool)
  | num (q : ℚ)
  | str (s : String)
  deriving DecidableEq, Repr

/-- Python `value is None`. -/
def JVal.isNull : JVal → Bool
  | .null => true
  | _ => false

/-- Python truthiness of a scalar (`bool(value)`). -/
def pyTruthy : JVal → Bool
  | .null => false
  | .bool b => b
  | .num q => decide (q ≠ 0)
  | .str s => decide (s ≠ "")

/-- Python numeric coercion used by comparisons and arithmetic: numbers are
themselves, `True`/`False` are 1/0, everything else raises `TypeError`
(signalled by `none`). -/
def pyNum : JVal → Option ℚ
  | .num q => some q
  | .bool b => some (if b then 1 else 0)
  | _ => none

/-- Python `value == 0` (never raises; non-numeric values simply compare
unequal). -/
def pyEqZero : JVal → Bool
  | .num q => decide (q = 0)
  | .bool b => !b
  | _ => false

/-- Python `str(value)` for the scalar values in the model. -/
def pyStr : JVal → String
  | .null => "None"
  | .bool true => "True"
  | .bool false => "False"
  | .num q => if q.den = 1 then toString q.num else toString q
  | .str s => s

/-- A Python dict: an insertion-ordered association list.  The operations
below mirror Python dict semantics (`d.get`, `d[k] = v`, `d.pop(k, None)`). -/
def PyDict (κ ν : Type) : Type := List (κ × ν)

instance (κ ν : Type) [DecidableEq κ] [DecidableEq ν] : DecidableEq (PyDict κ ν) :=
  inferInstanceAs (DecidableEq (List (κ × ν)))

namespace PyDict

variable {κ ν : Type} [DecidableEq κ]

/-- `d.get(k)`: the value stored under the first occurrence of `k`. -/
def dget : PyDict κ ν → κ → Option ν
  | [], _ => none
  | (k', v) :: rest, k => if k' = k then some v else dget rest k

/-- `d[k] = v`: replace in place if the key exists, else append. -/
def dinsert : PyDict κ ν → κ → ν → PyDict κ ν
  | [], k, v => [(k, v)]
  | (k', v') :: rest, k, v =>
      if k' = k then (k, v) :: rest else (k', v') :: dinsert rest k v

/-- `d.pop(k, None)`: drop the entry for `k` if present. -/
def derase : PyDict κ ν → κ → PyDict κ ν
  | [], _ => []
  | (k', v') :: rest, k =>
      if k' = k then derase rest k else (k', v') :: derase rest k

/-- `not d` in Python: a dict is falsy iff it is empty. -/
def isEmpty : PyDict κ ν → Bool
  | [] => true
  | _ :: _ => false

/-- `len(d)`. -/
def dlen (d : PyDict κ ν) : Nat := List.length d

end PyDict

open PyDict

/-- The state of a `SimpleConfig` instance: the command-line option dict,
the persisted user-config dict, and the externally supplied fee-estimate
samples (confirmation target, fee rate per kB). -/
structure SimpleConfig where
  cmdline_options : PyDict String JVal
  user_config : PyDict String JVal
  fee_estimates : PyDict Nat ℚ
  deriving DecidableEq

/-- `SimpleConfig.get(key, default)`: the command-line value if present and
non-`None`, else the user-config value if the key is present there, else
`default`. -/
def SimpleConfig.get (st : SimpleConfig) (key : String) (default : JVal) : JVal :=
  let out := (dget st.cmdline_options key).getD JVal.null
  if out.isNull then (dget st.user_config key).getD default else out

/-- `SimpleConfig.is_modifiable(key)`: `key not in self.cmdline_options`. -/
def SimpleConfig.is_modifiable (st : SimpleConfig) (key : String) : Bool :=
  (dget st.cmdline_options key).isNone

/-- `SimpleConfig._set_key_in_user_config(key, value)`: store non-`None`
values, pop the key on `None`.  (The `save` flag only triggers the disk
write, which is outside the model.) -/
def SimpleConfig.set_key_in_user_config (st : SimpleConfig) (key : String)
    (value : JVal) : SimpleConfig :=
  { st with user_config :=
      if value.isNull then derase st.user_config key
      else dinsert st.user_config key value }

/-- `SimpleConfig.set_key(key, value)`: refuse (with only a warning) when the
key was set on the command line, else write through to the user config. -/
def SimpleConfig.set_key (st : SimpleConfig) (key : String) (value : JVal) :
    SimpleConfig :=
  if st.is_modifiable key then st.set_key_in_user_config key value else st

/-- `FINAL_CONFIG_VERSION = 2`, the compile-time final schema version.
Kept as a rational because Python compares it against arbitrary numeric
values read from the config file. -/
def FINAL_CONFIG_VERSION : ℚ := 2

/-- `SimpleConfig.rename_config_keys(config, keypairs)`: for each
`(old, new)` pair, if `old` is present, copy its value to `new` unless
`new` already exists, then delete `old`. -/
def rename_config_keys (cfg : PyDict String JVal)
    (keypairs : List (String × String)) : PyDict String JVal :=
  keypairs.foldl
    (fun c kp =>
      match dget c kp.1 with
      | some v => derase (if (dget c kp.2).isSome then c else dinsert c kp.2 v) kp.1
      | none => c)
    cfg

/-- `SimpleConfig.get_config_version()`: `get('config_version', 1)`, compared
numerically against `FINAL_CONFIG_VERSION` (a non-numeric stored value makes
the Python comparison raise `TypeError`).  The higher-than-final warning is
only a diagnostic print. -/
def SimpleConfig.get_config_version (st : SimpleConfig) : Except String ℚ :=
  match pyNum (st.get "config_version" (JVal.num 1)) with
  | some q => .ok q
  | none => .error "TypeError: config_version is not a number"

/-- `SimpleConfig.requires_upgrade()`: `get_config_version() < FINAL_CONFIG_VERSION`. -/
def SimpleConfig.requires_upgrade (st : SimpleConfig) : Except String Bool :=
  match st.get_config_version with
  | .ok q => .ok (decide (q < FINAL_CONFIG_VERSION))
  | .error e => .error e

/-- `SimpleConfig._is_upgrade_method_needed(min_version, max_version)`:
false above the window, an unrecoverable exception below it, true inside. -/
def SimpleConfig.is_upgrade_method_needed (st : SimpleConfig)
    (min_version max_version : ℚ) : Except String Bool :=
  match st.get_config_version with
  | .error e => .error e
  | .ok cur =>
      if max_version < cur then .ok false
      else if cur < min_version then
        .error "config upgrade: unexpected version"
      else .ok true

/-- Split a character list at every colon (Python `s.split(':')` on the
character level; the empty string yields one empty field, as in Python). -/
def splitOnColon : List Char → List (List Char)
  | [] => [[]]
  | c :: rest =>
      match splitOnColon rest with
      | [] => [[c]]
      | g :: gs => if c = ':' then [] :: g :: gs else (c :: g) :: gs

/-- Join fields with colons (inverse of `splitOnColon` on the non-dropped
part of an `rsplit`). -/
def joinColon : List (List Char) → String
  | [] => ""
  | x :: xs => xs.foldl (fun acc y => acc ++ ":" ++ String.mk y) (String.mk x)

/-- Python `s.rsplit(':', 2)` unpacked into exactly three components:
splits off the last two colon-separated fields, failing (`ValueError` on
unpacking) when the string holds fewer than two colons. -/
def rsplit2 (s : String) : Option (String × String × String) :=
  match (splitOnColon s.data).reverse with
  | c :: b :: a :: rest =>
      some (joinColon ((a :: rest).reverse), String.mk b, String.mk c)
  | _ => none

/-- Python `int(s)` success test: an optional sign followed by a nonempty
run of decimal digits. -/
def pyIntParses (s : String) : Bool :=
  match s.data with
  | [] => false
  | c :: rest =>
      if c = '-' ∨ c = '+' then !rest.isEmpty && rest.all Char.isDigit
      else (c :: rest).all Char.isDigit

/-- The `try` block of `convert_version_2`: parse the legacy server value
`host:port:protocol` (protocol `s` or `t`, integer port) and rebuild it as
`host:port:s`; `none` means some step raised and the key is dropped. -/
def parseServer (v : Option JVal) : Option String :=
  match rsplit2 (pyStr (v.getD JVal.null)) with
  | none => none
  | some (host, port, protocol) =>
      if protocol = "s" ∨ protocol = "t" then
        if pyIntParses port then some (host ++ ":" ++ port ++ ":s")
        else none
      else none

/-- `SimpleConfig.convert_version_2()`: the version 1 → 2 migration step.
Guarded by the `[1, 1]` applicability window; renames
`auto_cycle` → `auto_connect` in the user config, normalizes or drops the
`server` entry, and sets `config_version` to 2. -/
def SimpleConfig.convert_version_2 (st : SimpleConfig) :
    Except String SimpleConfig :=
  match st.is_upgrade_method_needed 1 1 with
  | .error e => .error e
  | .ok false => .ok st
  | .ok true =>
      let st1 : SimpleConfig :=
        { st with user_config :=
            rename_config_keys st.user_config [("auto_cycle", "auto_connect")] }
      let st2 : SimpleConfig :=
        match parseServer (dget st1.user_config "server") with
        | some s => st1.set_key_in_user_config "server" (JVal.str s)
        | none => st1.set_key_in_user_config "server" JVal.null
      .ok (st2.set_key "config_version" (JVal.num 2))

/-- `SimpleConfig.upgrade()`: run the migration chain, then force
`config_version` to `FINAL_CONFIG_VERSION`. -/
def SimpleConfig.upgrade (st : SimpleConfig) : Except String SimpleConfig :=
  match st.convert_version_2 with
  | .error e => .error e
  | .ok st' => .ok (st'.set_key "config_version" (JVal.num FINAL_CONFIG_VERSION))

/-- `SimpleConfig.__init__(options, read_user_config_function)`: strip
`config_version` from the command-line options, load the persisted config
(an empty load is replaced by `{config_version: FINAL_CONFIG_VERSION}`),
apply the `auto_cycle` → `auto_connect` command-line rename, and run the
upgrade chain when the loaded version lags.  Path resolution, directory
creation and the singleton registration are filesystem or global side
effects outside the model. -/
def initSimpleConfig (options loaded : PyDict String JVal) :
    Except String SimpleConfig :=
  let cmdline := derase options "config_version"
  let uc := if loaded.isEmpty then [("config_version", JVal.num FINAL_CONFIG_VERSION)]
            else loaded
  let st1 : SimpleConfig :=
    ⟨rename_config_keys cmdline [("auto_cycle", "auto_connect")], uc, []⟩
  match st1.requires_upgrade with
  | .error e => .error e
  | .ok true => st1.upgrade
  | .ok false => .ok st1

/-- Modelled from the spec: `FEE_TARGETS` is imported from `lib/bitcoin.py`,
which is not among the analysed sources; the spec gives the fixed ordered
list of confirmation targets for levels 0-3 as `[25, 10, 5, 2]`. -/
def FEE_TARGETS : List Nat := [25, 10, 5, 2]

/-- Python list indexing `l[i]`: negative indices address elements from the
end (`l[-1]` is the last element); indices out of range on either side
raise `IndexError` (`none` here). -/
def pyIndex {α : Type} (l : List α) (i : Int) : Option α :=
  if 0 ≤ i then l.get? i.toNat
  else if 0 ≤ i + l.length then l.get? (i + l.length).toNat
  else none

/-- `SimpleConfig.has_fee_estimates()`: the sample map holds exactly four
entries. -/
def SimpleConfig.has_fee_estimates (st : SimpleConfig) : Bool :=
  dlen st.fee_estimates == 4

/-- `SimpleConfig.is_dynfee()`: the `dynamic_fees` preference is truthy and
the sample map is complete. -/
def SimpleConfig.is_dynfee (st : SimpleConfig) : Bool :=
  pyTruthy (st.get "dynamic_fees" (JVal.bool false)) && st.has_fee_estimates

/-- `SimpleConfig.dynfee(i)`: levels 0-3 index `FEE_TARGETS` (with Python
semantics for negative indices), level 4 is the synthetic
`sample[2] + sample[2]/2` tier, any other level fails the `assert`; a
non-`None` result is clamped to `5 * MAX_FEE_RATE`.  `MFR` stands for the
constant `MAX_FEE_RATE` imported from `lib/bitcoin.py` (not among the
analysed sources), modelled from the spec as an arbitrary compiled
ceiling, hence kept as an explicit parameter. -/
def SimpleConfig.dynfee (MFR : ℚ) (st : SimpleConfig) (i : Int) :
    Except String (Option ℚ) :=
  if i < 4 then
    match pyIndex FEE_TARGETS i with
    | none => .error "IndexError: list index out of range"
    | some j => .ok ((dget st.fee_estimates j).map (fun fee => min (5 * MFR) fee))
  else if i = 4 then
    .ok ((dget st.fee_estimates 2).map (fun fee => min (5 * MFR) (fee + fee / 2)))
  else .error "AssertionError"

/-- Python `==` on two `dict.get` results (`None == None` is `True`,
`None` never equals a number). -/
def eqOptQ : Option ℚ → Option ℚ → Bool
  | none, none => true
  | some x, some y => decide (x = y)
  | _, _ => false

/-- Python `min(pairs, key=itemgetter(1))`: the first pair attaining the
minimal second component (`min` keeps the earliest minimum). -/
def minBySnd : List (Int × ℚ) → Option (Int × ℚ)
  | [] => none
  | x :: xs =>
      match minBySnd xs with
      | none => some x
      | some m => some (if m.2 < x.2 then m else x)

/-- The distance list `(target, abs(fee - fee_per_kb))` built inside
`reverse_dynfee`; `none` when some candidate fee is Python `None`
(the subtraction raises `TypeError`). -/
def distList : List (Int × Option ℚ) → ℚ → Option (List (Int × ℚ))
  | [], _ => some []
  | (k, some f) :: rest, t => (distList rest t).map (fun r => (k, |f - t|) :: r)
  | (_, none) :: _, _ => none

/-- The candidate-scan branch of `reverse_dynfee`: the known samples plus
the synthetic pair `(1, dynfee(4))`, nearest by absolute difference, with
the below-half-of-the-25-block-sample override to `-1`. -/
def SimpleConfig.reverse_dynfee_scan (MFR : ℚ) (st : SimpleConfig)
    (fee_per_kb : ℚ) : Except String Int :=
  match SimpleConfig.dynfee MFR st 4 with
  | .error e => .error e
  | .ok d4 =>
      match distList
          (List.map (fun p => ((p.1 : Int), some p.2)) st.fee_estimates
            ++ [((1 : Int), d4)]) fee_per_kb with
      | none => .error "TypeError: unsupported operand"
      | some dist =>
          match minBySnd dist with
          | none => .error "ValueError: min of empty sequence"
          | some m =>
              match dget st.fee_estimates 25 with
              | none => .error "TypeError: unsupported operand"
              | some s25 =>
                  .ok (if fee_per_kb < s25 / 2 then -1 else m.1)

/-- `SimpleConfig.reverse_dynfee(fee_per_kb)`: the flat-fee-market shortcut
returns 5 when dynamic fees are on, the 25- and 5-block samples compare
equal and the target is at least the 5-block sample; otherwise the
candidate scan runs. -/
def SimpleConfig.reverse_dynfee (MFR : ℚ) (st : SimpleConfig)
    (fee_per_kb : ℚ) : Except String Int :=
  if st.is_dynfee && eqOptQ (dget st.fee_estimates 25) (dget st.fee_estimates 5) then
    match dget st.fee_estimates 5 with
    | none => .error "TypeError: unsupported comparison"
    | some s5 =>
        if s5 ≤ fee_per_kb then .ok 5
        else SimpleConfig.reverse_dynfee_scan MFR st fee_per_kb
  else SimpleConfig.reverse_dynfee_scan MFR st fee_per_kb

/-- `SimpleConfig.max_fee_rate()`: the configured `max_fee_rate` (defaulting
to the compiled ceiling), with the Python `f == 0` check replacing a zero
value by the ceiling.  `MFR` is the `MAX_FEE_RATE` parameter again. -/
def SimpleConfig.max_fee_rate (MFR : ℚ) (st : SimpleConfig) : JVal :=
  let f := st.get "max_fee_rate" (JVal.num MFR)
  if pyEqZero f then JVal.num MFR else f

/-- Python `int(q)`: truncation toward zero. -/
def pyIntTrunc (q : ℚ) : Int := if 0 ≤ q then ⌊q⌋ else ⌈q⌉

/-- `SimpleConfig.static_fee_index(value)`: the source computes an index and
then applies `min(0, index)` followed by `max(10, index)`; a non-numeric
`max_fee_rate` raises `TypeError` and a zero one `ZeroDivisionError`. -/
def SimpleConfig.static_fee_index (MFR : ℚ) (st : SimpleConfig) (value : ℚ) :
    Except String Int :=
  match pyNum (st.max_fee_rate MFR) with
  | none => .error "TypeError: unsupported operand"
  | some m =>
      if m = 0 then .error "ZeroDivisionError: division by zero"
      else
        .ok (max 10 (min 0 (pyIntTrunc ((value - m * (2 / 5)) / m * (3 / 50)))))

/-! ### Association-list lemmas -/

namespace PyDict

variable {κ ν : Type} [DecidableEq κ]

theorem dget_dinsert_self (d : PyDict κ ν) (k : κ) (v : ν) :
    dget (dinsert d k v) k = some v := by
  induction d with
  | nil => simp [dget, dinsert]
  | cons hd tl ih =>
      obtain ⟨k', v'⟩ := hd
      by_cases h : k' = k
      · simp [dinsert, dget, h]
      · simp [dinsert, dget, h, ih]

theorem dget_dinsert_ne (d : PyDict κ ν) {k k' : κ} (v : ν) (h : k' ≠ k) :
    dget (dinsert d k v) k' = dget d k' := by
  have hk : ¬ (k = k') := fun hh => h hh.symm
  induction d with
  | nil => simp [dget, dinsert, hk]
  | cons hd tl ih =>
      obtain ⟨k0, v0⟩ := hd
      by_cases h0 : k0 = k
      · subst h0
        simp [dinsert, dget, hk]
      · simp [dinsert, dget, h0, ih]

theorem dget_derase_self (d : PyDict κ ν) (k : κ) :
    dget (derase d k) k = none := by
  induction d with
  | nil => simp [dget, derase]
  | cons hd tl ih =>
      obtain ⟨k0, v0⟩ := hd
      by_cases h0 : k0 = k
      · simp [derase, h0, ih]
      · simp [derase, dget, h0, ih]

theorem dget_derase_ne (d : PyDict κ ν) {k k' : κ} (h : k' ≠ k) :
    dget (derase d k) k' = dget d k' := by
  have hk : ¬ (k = k') := fun hh => h hh.symm
  induction d with
  | nil => simp [derase]
  | cons hd tl ih =>
      obtain ⟨k0, v0⟩ := hd
      by_cases h0 : k0 = k
      · subst h0
        simp [derase, dget, hk, ih]
      · simp [derase, dget, h0, ih]

theorem ne_nil_of_dget_isSome {d : PyDict κ ν} {k : κ} {v : ν}
    (h : dget d k = some v) : d.isEmpty = false := by
  cases d with
  | nil => simp [dget] at h
  | cons hd tl => simp [isEmpty]

end PyDict

/-! ### Claim C1 and C2 theorems -/

/-- C1: `get(key, default)` returns the `cmdline` value when the key is
present there with a non-null value; otherwise it returns the persisted
value when the key is present in `user_config`; otherwise the given
default. -/
theorem get_three_tier_resolution (st : SimpleConfig) (key : String) (default : JVal) :
    (∀ v, dget st.cmdline_options key = some v → v ≠ JVal.null →
        st.get key default = v)
    ∧ ((∀ v, dget st.cmdline_options key = some v → v = JVal.null) →
        (∀ w, dget st.user_config key = some w → st.get key default = w)
        ∧ (dget st.user_config key = none → st.get key default = default)) := by
  refine ⟨?_, ?_⟩
  · intro v hv hnn
    have hnull : v.isNull = false := by
      cases v <;> simp [JVal.isNull] at hnn ⊢
    simp [SimpleConfig.get, hv, hnull]
  · intro hall
    have hout : ((dget st.cmdline_options key).getD JVal.null).isNull = true := by
      cases h : dget st.cmdline_options key with
      | none => simp [JVal.isNull]
      | some v => simp [hall v h, JVal.isNull]
    constructor
    · intro w hw
      simp [SimpleConfig.get, hout, hw]
    · intro hnone
      simp [SimpleConfig.get, hout, hnone]

/-- Concrete instantiation of `get_three_tier_resolution` exercising all
three tiers. -/
theorem get_three_tier_resolution_witness :
    SimpleConfig.get ⟨[("a", JVal.num 7)], [("a", JVal.num 1), ("b", JVal.num 2)], []⟩
        "a" JVal.null = JVal.num 7
    ∧ SimpleConfig.get ⟨[("a", JVal.null)], [("a", JVal.num 1)], []⟩ "a" JVal.null
        = JVal.num 1
    ∧ SimpleConfig.get ⟨[], [], []⟩ "a" (JVal.num 9) = JVal.num 9 := by
  refine ⟨?_, ?_, ?_⟩
  · exact (get_three_tier_resolution ⟨[("a", JVal.num 7)], [("a", JVal.num 1), ("b", JVal.num 2)], []⟩
      "a" JVal.null).1 (JVal.num 7) (by decide) (by decide)
  · exact (get_three_tier_resolution ⟨[("a", JVal.null)], [("a", JVal.num 1)], []⟩
      "a" JVal.null).2 (by decide) |>.1 (JVal.num 1) (by decide)
  · exact (get_three_tier_resolution ⟨[], [], []⟩ "a" (JVal.num 9)).2
      (by decide) |>.2 (by decide)

/-- C2: keys present on the command line are immutable (`set_key` leaves the
persisted map untouched, and `is_modifiable` is exactly absence from
`cmdline`); for keys absent from the command line, storing a non-null value
makes `get` return it, and storing null removes the key so `get` falls back
to the default. -/
theorem set_key_respects_cmdline_immutability (st : SimpleConfig) (key : String)
    (value : JVal) :
    (st.is_modifiable key = true ↔ dget st.cmdline_options key = none)
    ∧ ((dget st.cmdline_options key).isSome = true →
        (st.set_key key value).user_config = st.user_config)
    ∧ (dget st.cmdline_options key = none → value ≠ JVal.null →
        (st.set_key key value).get key JVal.null = value)
    ∧ (dget st.cmdline_options key = none → ∀ default,
        (st.set_key key JVal.null).get key default = default) := by
  refine ⟨?_, ?_, ?_, ?_⟩
  · simp [SimpleConfig.is_modifiable, Option.isNone_iff_eq_none]
  · intro h
    cases hc : dget st.cmdline_options key with
    | none => rw [hc] at h; simp at h
    | some v =>
        have hmod : st.is_modifiable key = false := by
          simp [SimpleConfig.is_modifiable, hc]
        simp [SimpleConfig.set_key, hmod]
  · intro hnone hnn
    have hmod : st.is_modifiable key = true := by
      simp [SimpleConfig.is_modifiable, hnone]
    have hnull : value.isNull = false := by
      cases value <;> simp [JVal.isNull] at hnn ⊢
    simp [SimpleConfig.set_key, hmod, SimpleConfig.set_key_in_user_config, hnull,
      SimpleConfig.get, hnone, dget_dinsert_self, JVal.isNull]
  · intro hnone default
    have hmod : st.is_modifiable key = true := by
      simp [SimpleConfig.is_modifiable, hnone]
    simp [SimpleConfig.set_key, hmod, SimpleConfig.set_key_in_user_config,
      SimpleConfig.get, hnone, JVal.isNull, dget_derase_self]

/-- Concrete instantiation of `set_key_respects_cmdline_immutability`. -/
theorem set_key_respects_cmdline_immutability_witness :
    (SimpleConfig.set_key ⟨[("k", JVal.num 3)], [("k", JVal.num 1)], []⟩
        "k" (JVal.num 5)).user_config = [("k", JVal.num 1)]
    ∧ (SimpleConfig.set_key ⟨[], [("k", JVal.num 1)], []⟩ "k" (JVal.num 5)).get
        "k" JVal.null = JVal.num 5
    ∧ (SimpleConfig.set_key ⟨[], [("k", JVal.num 1)], []⟩ "k" JVal.null).get
        "k" (JVal.num 9) = JVal.num 9 := by
  refine ⟨?_, ?_, ?_⟩
  · exact (set_key_respects_cmdline_immutability
      ⟨[("k", JVal.num 3)], [("k", JVal.num 1)], []⟩ "k" (JVal.num 5)).2.1 (by decide)
  · exact (set_key_respects_cmdline_immutability
      ⟨[], [("k", JVal.num 1)], []⟩ "k" (JVal.num 5)).2.2.1 (by decide) (by decide)
  · exact (set_key_respects_cmdline_immutability
      ⟨[], [("k", JVal.num 1)], []⟩ "k" JVal.null).2.2.2 (by decide) (JVal.num 9)

/-! ### Rename and migration helper lemmas -/

theorem rename_single_eq (c : PyDict String JVal) (o n : String) :
    rename_config_keys c [(o, n)] =
      match dget c o with
      | some v => derase (if (dget c n).isSome then c else dinsert c n v) o
      | none => c := rfl

theorem dget_rename_single_other (c : PyDict String JVal) {o n k : String}
    (hko : k ≠ o) (hkn : k ≠ n) :
    dget (rename_config_keys c [(o, n)]) k = dget c k := by
  rw [rename_single_eq]
  cases h : dget c o with
  | none => rfl
  | some v =>
      cases hn : (dget c n).isSome with
      | true => simp [hn, dget_derase_ne _ hko]
      | false => simp [hn, dget_derase_ne _ hko, dget_dinsert_ne _ _ hkn]

theorem dget_rename_single_old (c : PyDict String JVal) {o n : String} :
    dget (rename_config_keys c [(o, n)]) o = none := by
  rw [rename_single_eq]
  cases hv : dget c o with
  | none => exact hv
  | some v =>
      cases hn : (dget c n).isSome <;> simp [hn, dget_derase_self]

theorem dget_rename_single_transfer (c : PyDict String JVal) {o n : String}
    (h : o ≠ n) {v : JVal} (hv : dget c o = some v) (hn : dget c n = none) :
    dget (rename_config_keys c [(o, n)]) n = some v := by
  rw [rename_single_eq, hv]
  have hs : (dget c n).isSome = false := by simp [hn]
  simp [hs, dget_derase_ne _ (show n ≠ o from fun hh => h hh.symm),
    dget_dinsert_self]

theorem dget_rename_single_keep (c : PyDict String JVal) {o n : String}
    (h : o ≠ n) {w : JVal} (hw : dget c n = some w) :
    dget (rename_config_keys c [(o, n)]) n = some w := by
  rw [rename_single_eq]
  cases hv : dget c o with
  | none => exact hw
  | some v =>
      have hs : (dget c n).isSome = true := by simp [hw]
      simp [hs, dget_derase_ne _ (show n ≠ o from fun hh => h hh.symm), hw]

/-- C4: a migration step guarded by a window `[minVersion, maxVersion]` is a
no-op when the current version is above the window, an unrecoverable error
(aborting initialization) when it is below, and runs exactly when the
current version lies inside the window; the last two conjuncts instantiate
this for `convert_version_2`, whose window is `[1, 1]`. -/
theorem upgrade_window_gating (st : SimpleConfig) (minV maxV cur : ℚ)
    (hcur : st.get_config_version = .ok cur) (hwin : minV ≤ maxV) :
    (maxV < cur → st.is_upgrade_method_needed minV maxV = .ok false)
    ∧ (cur < minV → ∃ e, st.is_upgrade_method_needed minV maxV = .error e)
    ∧ (st.is_upgrade_method_needed minV maxV = .ok true ↔ minV ≤ cur ∧ cur ≤ maxV)
    ∧ (1 < cur → st.convert_version_2 = .ok st)
    ∧ (cur < 1 → ∃ e, st.convert_version_2 = .error e) := by
  refine ⟨?_, ?_, ⟨?_, ?_⟩, ?_, ?_⟩
  · intro h
    simp [SimpleConfig.is_upgrade_method_needed, hcur, h]
  · intro h
    have h2 : ¬ (maxV < cur) := not_lt.mpr (le_of_lt (lt_of_lt_of_le h hwin))
    refine ⟨"config upgrade: unexpected version", ?_⟩
    simp [SimpleConfig.is_upgrade_method_needed, hcur, h2, h]
  · intro h
    by_cases h1 : maxV < cur
    · simp [SimpleConfig.is_upgrade_method_needed, hcur, h1] at h
    · by_cases h2 : cur < minV
      · simp [SimpleConfig.is_upgrade_method_needed, hcur, h1, h2] at h
      · exact ⟨not_lt.mp h2, not_lt.mp h1⟩
  · rintro ⟨ha, hb⟩
    have h1 : ¬ maxV < cur := not_lt.mpr hb
    have h2 : ¬ cur < minV := not_lt.mpr ha
    simp [SimpleConfig.is_upgrade_method_needed, hcur, h1, h2]
  · intro h
    have hfalse : st.is_upgrade_method_needed 1 1 = .ok false := by
      simp [SimpleConfig.is_upgrade_method_needed, hcur, h]
    simp [SimpleConfig.convert_version_2, hfalse]
  · intro h
    have h1 : ¬ (1:ℚ) < cur := not_lt.mpr (le_of_lt h)
    refine ⟨"config upgrade: unexpected version", ?_⟩
    simp [SimpleConfig.convert_version_2, SimpleConfig.is_upgrade_method_needed,
      hcur, h1, h]

/-- Concrete instantiation of `upgrade_window_gating`: version 3 is above
the `[1, 1]` window (no-op), version 1 is inside it (step runs). -/
theorem upgrade_window_gating_witness :
    SimpleConfig.is_upgrade_method_needed ⟨[], [("config_version", JVal.num 3)], []⟩ 1 1
        = .ok false
    ∧ SimpleConfig.convert_version_2 ⟨[], [("config_version", JVal.num 3)], []⟩
        = .ok ⟨[], [("config_version", JVal.num 3)], []⟩
    ∧ SimpleConfig.is_upgrade_method_needed ⟨[], [("config_version", JVal.num 1)], []⟩ 1 1
        = .ok true := by
  have h3 := upgrade_window_gating ⟨[], [("config_version", JVal.num 3)], []⟩
    1 1 3 rfl le_rfl
  have h1 := upgrade_window_gating ⟨[], [("config_version", JVal.num 1)], []⟩
    1 1 1 rfl le_rfl
  exact ⟨h3.1 (by norm_num), h3.2.2.2.1 (by norm_num),
    h1.2.2.1.mpr ⟨le_rfl, le_rfl⟩⟩

theorem convert_version_2_eq (cmd uc : PyDict String JVal) (fe : PyDict Nat ℚ)
    (hneed : SimpleConfig.is_upgrade_method_needed ⟨cmd, uc, fe⟩ 1 1 = .ok true) :
    SimpleConfig.convert_version_2 ⟨cmd, uc, fe⟩ =
      .ok (SimpleConfig.set_key
        (SimpleConfig.set_key_in_user_config
          ⟨cmd, rename_config_keys uc [("auto_cycle", "auto_connect")], fe⟩
          "server"
          (match parseServer
              (dget (rename_config_keys uc [("auto_cycle", "auto_connect")])
                "server") with
           | some s => JVal.str s
           | none => JVal.null))
        "config_version" (JVal.num 2)) := by
  simp only [SimpleConfig.convert_version_2, hneed]
  cases parseServer
      (dget (rename_config_keys uc [("auto_cycle", "auto_connect")]) "server") <;>
    rfl

/-- C5: at schema version 1 (with `config_version` not on the command line,
as construction guarantees), `convert_version_2` renames `auto_cycle` to
`auto_connect` in the persisted map, rewrites a parseable legacy
`host:port:protocol` server entry to the normalized `host:port:s` form,
drops the `server` key entirely on any parse failure, and stores
`config_version = 2`. -/
theorem convert_version_2_spec (st : SimpleConfig)
    (hcmd : dget st.cmdline_options "config_version" = none)
    (hver : st.get_config_version = .ok 1) :
    ∃ st2, st.convert_version_2 = .ok st2
      ∧ dget st2.user_config "config_version" = some (JVal.num 2)
      ∧ dget st2.user_config "auto_cycle" = none
      ∧ (∀ v, dget st.user_config "auto_cycle" = some v →
            dget st.user_config "auto_connect" = none →
            dget st2.user_config "auto_connect" = some v)
      ∧ (∀ w, dget st.user_config "auto_connect" = some w →
            dget st2.user_config "auto_connect" = some w)
      ∧ (∀ s, parseServer (dget st.user_config "server") = some s →
            dget st2.user_config "server" = some (JVal.str s))
      ∧ (parseServer (dget st.user_config "server") = none →
            dget st2.user_config "server" = none) := by
  obtain ⟨cmd, uc, fe⟩ := st
  simp only at hcmd hver
  have hneed : SimpleConfig.is_upgrade_method_needed ⟨cmd, uc, fe⟩ 1 1 = .ok true := by
    simp [SimpleConfig.is_upgrade_method_needed, hver]
  have hconv := convert_version_2_eq cmd uc fe hneed
  have hserver : dget (rename_config_keys uc [("auto_cycle", "auto_connect")]) "server"
      = dget uc "server" := dget_rename_single_other _ (by decide) (by decide)
  have hcycle : dget (rename_config_keys uc [("auto_cycle", "auto_connect")])
      "auto_cycle" = none := dget_rename_single_old _
  cases hp : parseServer (dget uc "server") with
  | some s =>
      rw [hserver, hp] at hconv
      have hstep : SimpleConfig.set_key_in_user_config
          (⟨cmd, rename_config_keys uc [("auto_cycle", "auto_connect")], fe⟩ :
            SimpleConfig) "server" (JVal.str s)
          = ⟨cmd, dinsert (rename_config_keys uc [("auto_cycle", "auto_connect")])
              "server" (JVal.str s), fe⟩ := rfl
      rw [hstep] at hconv
      have hfin : SimpleConfig.set_key
          (⟨cmd, dinsert (rename_config_keys uc [("auto_cycle", "auto_connect")])
              "server" (JVal.str s), fe⟩ : SimpleConfig)
          "config_version" (JVal.num 2)
          = ⟨cmd, dinsert (dinsert
              (rename_config_keys uc [("auto_cycle", "auto_connect")])
              "server" (JVal.str s)) "config_version" (JVal.num 2), fe⟩ := by
        simp [SimpleConfig.set_key, SimpleConfig.is_modifiable, hcmd,
          SimpleConfig.set_key_in_user_config, JVal.isNull]
      rw [hfin] at hconv
      refine ⟨_, hconv, ?_, ?_, ?_, ?_, ?_, ?_⟩
      · exact dget_dinsert_self _ _ _
      · rw [dget_dinsert_ne _ _ (by decide), dget_dinsert_ne _ _ (by decide)]
        exact hcycle
      · intro v hv hn
        rw [dget_dinsert_ne _ _ (by decide), dget_dinsert_ne _ _ (by decide)]
        exact dget_rename_single_transfer _ (by decide) hv hn
      · intro w hw
        rw [dget_dinsert_ne _ _ (by decide), dget_dinsert_ne _ _ (by decide)]
        exact dget_rename_single_keep _ (by decide) hw
      · intro s' hs'
        cases hs'
        rw [dget_dinsert_ne _ _ (by decide)]
        exact dget_dinsert_self _ _ _
      · intro hnone
        cases hnone
  | none =>
      rw [hserver, hp] at hconv
      have hstep : SimpleConfig.set_key_in_user_config
          (⟨cmd, rename_config_keys uc [("auto_cycle", "auto_connect")], fe⟩ :
            SimpleConfig) "server" JVal.null
          = ⟨cmd, derase (rename_config_keys uc [("auto_cycle", "auto_connect")])
              "server", fe⟩ := rfl
      rw [hstep] at hconv
      have hfin : SimpleConfig.set_key
          (⟨cmd, derase (rename_config_keys uc [("auto_cycle", "auto_connect")])
              "server", fe⟩ : SimpleConfig)
          "config_version" (JVal.num 2)
          = ⟨cmd, dinsert (derase
              (rename_config_keys uc [("auto_cycle", "auto_connect")])
              "server") "config_version" (JVal.num 2), fe⟩ := by
        simp [SimpleConfig.set_key, SimpleConfig.is_modifiable, hcmd,
          SimpleConfig.set_key_in_user_config, JVal.isNull]
      rw [hfin] at hconv
      refine ⟨_, hconv, ?_, ?_, ?_, ?_, ?_, ?_⟩
      · exact dget_dinsert_self _ _ _
      · rw [dget_dinsert_ne _ _ (by decide), dget_derase_ne _ (by decide)]
        exact hcycle
      · intro v hv hn
        rw [dget_dinsert_ne _ _ (by decide), dget_derase_ne _ (by decide)]
        exact dget_rename_single_transfer _ (by decide) hv hn
      · intro w hw
        rw [dget_dinsert_ne _ _ (by decide), dget_derase_ne _ (by decide)]
        exact dget_rename_single_keep _ (by decide) hw
      · intro s' hs'
        cases hs'
      · intro _
        rw [dget_dinsert_ne _ _ (by decide)]
        exact dget_derase_self _ _

/-- Concrete instantiation of `convert_version_2_spec`: the two examples
from the specification, a well-formed legacy server entry and a malformed
one. -/
theorem convert_version_2_spec_witness :
    (∃ st2, SimpleConfig.convert_version_2
        ⟨[], [("config_version", JVal.num 1), ("auto_cycle", JVal.bool true),
              ("server", JVal.str "host:50001:t")], []⟩ = .ok st2
      ∧ dget st2.user_config "config_version" = some (JVal.num 2)
      ∧ dget st2.user_config "auto_connect" = some (JVal.bool true)
      ∧ dget st2.user_config "auto_cycle" = none
      ∧ dget st2.user_config "server" = some (JVal.str "host:50001:s"))
    ∧ (∃ st2, SimpleConfig.convert_version_2
        ⟨[], [("config_version", JVal.num 1),
              ("server", JVal.str "not-a-valid-server")], []⟩ = .ok st2
      ∧ dget st2.user_config "config_version" = some (JVal.num 2)
      ∧ dget st2.user_config "server" = none) := by
  constructor
  · obtain ⟨st2, hc, hcv, hac, htr, hkp, hsome, hnone⟩ :=
      convert_version_2_spec
        ⟨[], [("config_version", JVal.num 1), ("auto_cycle", JVal.bool true),
              ("server", JVal.str "host:50001:t")], []⟩ rfl rfl
    exact ⟨st2, hc, hcv, htr (JVal.bool true) (by decide) (by decide), hac,
      hsome "host:50001:s" (by decide)⟩
  · obtain ⟨st2, hc, hcv, hac, htr, hkp, hsome, hnone⟩ :=
      convert_version_2_spec
        ⟨[], [("config_version", JVal.num 1),
              ("server", JVal.str "not-a-valid-server")], []⟩ rfl rfl
    exact ⟨st2, hc, hcv, hnone (by decide)⟩

theorem set_key_in_user_config_cmdline (st : SimpleConfig) (k : String) (v : JVal) :
    (st.set_key_in_user_config k v).cmdline_options = st.cmdline_options := rfl

theorem set_key_cmdline (st : SimpleConfig) (k : String) (v : JVal) :
    (st.set_key k v).cmdline_options = st.cmdline_options := by
  unfold SimpleConfig.set_key
  split <;> rfl

theorem convert_preserves_cmdline (cmd uc : PyDict String JVal) (fe : PyDict Nat ℚ)
    {st' : SimpleConfig}
    (h : SimpleConfig.convert_version_2 ⟨cmd, uc, fe⟩ = .ok st') :
    st'.cmdline_options = cmd := by
  cases hn : SimpleConfig.is_upgrade_method_needed ⟨cmd, uc, fe⟩ 1 1 with
  | error e =>
      unfold SimpleConfig.convert_version_2 at h
      rw [hn] at h
      cases h
  | ok b =>
      cases b with
      | false =>
          unfold SimpleConfig.convert_version_2 at h
          rw [hn] at h
          cases h
          rfl
      | true =>
          rw [convert_version_2_eq cmd uc fe hn] at h
          injection h with h2
          subst h2
          rw [set_key_cmdline, set_key_in_user_config_cmdline]

theorem upgrade_sets_final (cmd uc : PyDict String JVal) (fe : PyDict Nat ℚ)
    {st' : SimpleConfig} (hcmd : dget cmd "config_version" = none)
    (h : SimpleConfig.upgrade ⟨cmd, uc, fe⟩ = .ok st') :
    dget st'.user_config "config_version" = some (JVal.num FINAL_CONFIG_VERSION) := by
  unfold SimpleConfig.upgrade at h
  cases hc : SimpleConfig.convert_version_2 ⟨cmd, uc, fe⟩ with
  | error e => rw [hc] at h; cases h
  | ok stc =>
      rw [hc] at h
      injection h with h2
      subst h2
      have hcl : stc.cmdline_options = cmd := convert_preserves_cmdline cmd uc fe hc
      have hmod : stc.is_modifiable "config_version" = true := by
        simp [SimpleConfig.is_modifiable, hcl, hcmd]
      simp [SimpleConfig.set_key, hmod, SimpleConfig.set_key_in_user_config,
        JVal.isNull, dget_dinsert_self]

theorem init_cmdline_no_config_version (options : PyDict String JVal) :
    dget (rename_config_keys (derase options "config_version")
      [("auto_cycle", "auto_connect")]) "config_version" = none := by
  rw [dget_rename_single_other _ (by decide) (by decide)]
  exact dget_derase_self _ _

theorem get_config_version_eq_of_cmd_none (cmd uc : PyDict String JVal)
    (fe : PyDict Nat ℚ) (hcv : dget cmd "config_version" = none) :
    SimpleConfig.get_config_version ⟨cmd, uc, fe⟩ =
      match pyNum ((dget uc "config_version").getD (JVal.num 1)) with
      | some q => .ok q
      | none => .error "TypeError: config_version is not a number" := by
  unfold SimpleConfig.get_config_version
  have hg : SimpleConfig.get ⟨cmd, uc, fe⟩ "config_version" (JVal.num 1)
      = (dget uc "config_version").getD (JVal.num 1) := by
    simp [SimpleConfig.get, hcv, JVal.isNull]
  rw [hg]

/-- C6: construction is idempotent with respect to migration: an
empty/absent load initializes the persisted map to exactly
`{config_version: FINAL_CONFIG_VERSION}` without any upgrade, and a load
already at `FINAL_CONFIG_VERSION` is kept literally unchanged with no
upgrade required. -/
theorem init_migration_idempotence (options loaded : PyDict String JVal) :
    (loaded.isEmpty = true →
      ∃ st, initSimpleConfig options loaded = .ok st
        ∧ st.user_config = [("config_version", JVal.num FINAL_CONFIG_VERSION)]
        ∧ st.requires_upgrade = .ok false)
    ∧ (dget loaded "config_version" = some (JVal.num FINAL_CONFIG_VERSION) →
      ∃ st, initSimpleConfig options loaded = .ok st
        ∧ st.user_config = loaded
        ∧ st.requires_upgrade = .ok false) := by
  have hcv := init_cmdline_no_config_version options
  constructor
  · intro hemp
    have hreq : SimpleConfig.requires_upgrade
        ⟨rename_config_keys (derase options "config_version")
            [("auto_cycle", "auto_connect")],
          [("config_version", JVal.num FINAL_CONFIG_VERSION)], []⟩ = .ok false := by
      rw [SimpleConfig.requires_upgrade, get_config_version_eq_of_cmd_none _ _ _ hcv]
      norm_num [PyDict.dget, pyNum, FINAL_CONFIG_VERSION]
    refine ⟨_, ?_, rfl, hreq⟩
    simp [initSimpleConfig, hemp, hreq]
  · intro hcv2
    have hne : loaded.isEmpty = false := ne_nil_of_dget_isSome hcv2
    have hreq : SimpleConfig.requires_upgrade
        ⟨rename_config_keys (derase options "config_version")
            [("auto_cycle", "auto_connect")], loaded, []⟩ = .ok false := by
      rw [SimpleConfig.requires_upgrade, get_config_version_eq_of_cmd_none _ _ _ hcv]
      norm_num [hcv2, pyNum, FINAL_CONFIG_VERSION]
    refine ⟨_, ?_, rfl, hreq⟩
    simp [initSimpleConfig, hne, hreq]

/-- Concrete instantiation of `init_migration_idempotence`: an empty load
and a version-2 load. -/
theorem init_migration_idempotence_witness :
    (∃ st, initSimpleConfig [("x", JVal.num 1)] [] = .ok st
      ∧ st.user_config = [("config_version", JVal.num FINAL_CONFIG_VERSION)]
      ∧ st.requires_upgrade = .ok false)
    ∧ (∃ st, initSimpleConfig []
          [("config_version", JVal.num 2), ("server", JVal.str "h:1:s")] = .ok st
      ∧ st.user_config = [("config_version", JVal.num 2), ("server", JVal.str "h:1:s")]
      ∧ st.requires_upgrade = .ok false) :=
  ⟨(init_migration_idempotence [("x", JVal.num 1)] []).1 rfl,
   (init_migration_idempotence []
      [("config_version", JVal.num 2), ("server", JVal.str "h:1:s")]).2 (by decide)⟩

/-- C3 refutation: a loaded config whose version is already above
`FINAL_CONFIG_VERSION` constructs successfully (with only a warning) and
keeps its higher version, so the schema version after a successful
construction is not always `FINAL_CONFIG_VERSION`. -/
theorem init_leaves_higher_config_version :
    initSimpleConfig [] [("config_version", JVal.num 5)]
      = .ok ⟨[], [("config_version", JVal.num 5)], []⟩
    ∧ dget (SimpleConfig.user_config ⟨[], [("config_version", JVal.num 5)], []⟩)
        "config_version" ≠ some (JVal.num FINAL_CONFIG_VERSION) := by
  constructor
  · rfl
  · decide

/-- C3 (amended): after a successful construction, the persisted schema
version equals `FINAL_CONFIG_VERSION` provided the loaded version (default
1) did not already exceed `FINAL_CONFIG_VERSION`; a higher loaded version
is left in place with only a warning. -/
theorem init_sets_final_version_when_not_above (options loaded : PyDict String JVal)
    (st : SimpleConfig)
    (hinit : initSimpleConfig options loaded = .ok st)
    (hle : ∀ q, pyNum ((dget loaded "config_version").getD (JVal.num 1)) = some q →
        q ≤ FINAL_CONFIG_VERSION) :
    dget st.user_config "config_version" = some (JVal.num FINAL_CONFIG_VERSION) := by
  have hcv := init_cmdline_no_config_version options
  cases hemp : loaded.isEmpty with
  | true =>
      have hreq : SimpleConfig.requires_upgrade
          ⟨rename_config_keys (derase options "config_version")
              [("auto_cycle", "auto_connect")],
            [("config_version", JVal.num FINAL_CONFIG_VERSION)], []⟩ = .ok false := by
        rw [SimpleConfig.requires_upgrade, get_config_version_eq_of_cmd_none _ _ _ hcv]
        norm_num [PyDict.dget, pyNum, FINAL_CONFIG_VERSION]
      simp only [initSimpleConfig, hemp, if_true, hreq] at hinit
      injection hinit with h2
      subst h2
      rfl
  | false =>
      cases hv : dget loaded "config_version" with
      | none =>
          have hgcv : SimpleConfig.get_config_version
              ⟨rename_config_keys (derase options "config_version")
                  [("auto_cycle", "auto_connect")], loaded, []⟩ = .ok 1 := by
            rw [get_config_version_eq_of_cmd_none _ _ _ hcv]
            simp [hv, pyNum]
          have hreq : SimpleConfig.requires_upgrade
              ⟨rename_config_keys (derase options "config_version")
                  [("auto_cycle", "auto_connect")], loaded, []⟩ = .ok true := by
            rw [SimpleConfig.requires_upgrade, hgcv]
            norm_num [FINAL_CONFIG_VERSION]
          simp only [initSimpleConfig, hemp, Bool.false_eq_true, if_false, hreq]
            at hinit
          exact upgrade_sets_final _ _ _ hcv hinit
      | some v =>
          cases hpv : pyNum v with
          | none =>
              have hgcv : SimpleConfig.get_config_version
                  ⟨rename_config_keys (derase options "config_version")
                      [("auto_cycle", "auto_connect")], loaded, []⟩
                  = .error "TypeError: config_version is not a number" := by
                rw [get_config_version_eq_of_cmd_none _ _ _ hcv]
                simp [hv, hpv]
              have hreq : SimpleConfig.requires_upgrade
                  ⟨rename_config_keys (derase options "config_version")
                      [("auto_cycle", "auto_connect")], loaded, []⟩
                  = .error "TypeError: config_version is not a number" := by
                rw [SimpleConfig.requires_upgrade, hgcv]
              simp only [initSimpleConfig, hemp, Bool.false_eq_true, if_false, hreq]
                at hinit
              cases hinit
          | some q =>
              have hq : q ≤ 2 := by
                have hh := hle q ?_
                · simpa [FINAL_CONFIG_VERSION] using hh
                · rw [hv]
                  exact hpv
              have hgcv : SimpleConfig.get_config_version
                  ⟨rename_config_keys (derase options "config_version")
                      [("auto_cycle", "auto_connect")], loaded, []⟩ = .ok q := by
                rw [get_config_version_eq_of_cmd_none _ _ _ hcv]
                simp [hv, hpv]
              rcases lt_or_ge q 2 with hlt | hge
              · have hreq : SimpleConfig.requires_upgrade
                    ⟨rename_config_keys (derase options "config_version")
                        [("auto_cycle", "auto_connect")], loaded, []⟩ = .ok true := by
                  rw [SimpleConfig.requires_upgrade, hgcv]
                  simp [FINAL_CONFIG_VERSION, hlt]
                simp only [initSimpleConfig, hemp, Bool.false_eq_true, if_false, hreq]
                  at hinit
                exact upgrade_sets_final _ _ _ hcv hinit
              · have hq2 : q = 2 := le_antisymm hq hge
                have hreq : SimpleConfig.requires_upgrade
                    ⟨rename_config_keys (derase options "config_version")
                        [("auto_cycle", "auto_connect")], loaded, []⟩ = .ok false := by
                  rw [SimpleConfig.requires_upgrade, hgcv]
                  simp [FINAL_CONFIG_VERSION, hq2]
                simp only [initSimpleConfig, hemp, Bool.false_eq_true, if_false, hreq]
                  at hinit
                injection hinit with h2
                subst h2
                rw [hv]
                cases v with
                | null => simp [pyNum] at hpv
                | str s => simp [pyNum] at hpv
                | bool b =>
                    cases b <;> simp [pyNum] at hpv <;>
                      rw [← hpv] at hq2 <;> norm_num at hq2
                | num r =>
                    simp [pyNum] at hpv
                    rw [hpv, hq2, FINAL_CONFIG_VERSION]

/-- Concrete instantiation of `init_sets_final_version_when_not_above`: a
version-less legacy config is migrated to version 2. -/
theorem init_sets_final_version_when_not_above_witness :
    dget (SimpleConfig.user_config
        ⟨[], [("auto_connect", JVal.bool true), ("config_version", JVal.num 2)], []⟩)
      "config_version" = some (JVal.num FINAL_CONFIG_VERSION) :=
  init_sets_final_version_when_not_above [] [("auto_cycle", JVal.bool true)]
    ⟨[], [("auto_connect", JVal.bool true), ("config_version", JVal.num 2)], []⟩
    (by rfl)
    (by
      intro q hq
      simp [PyDict.dget, pyNum] at hq
      rw [← hq]
      norm_num [FINAL_CONFIG_VERSION])

/-- C8: `dynfee(4)` returns one-and-a-half times the 2-block-target sample
when that sample exists, clamped to at most five times the compiled
ceiling, and absence when the 2-block sample is missing. -/
theorem dynfee_level4_spec (MFR : ℚ) (st : SimpleConfig) :
    (∀ f, dget st.fee_estimates 2 = some f →
      SimpleConfig.dynfee MFR st 4 = .ok (some (min (5 * MFR) (3 / 2 * f))))
    ∧ (dget st.fee_estimates 2 = none →
      SimpleConfig.dynfee MFR st 4 = .ok none) := by
  constructor
  · intro f hf
    have harith : f + f / 2 = 3 / 2 * f := by ring
    norm_num [SimpleConfig.dynfee, hf, harith]
  · intro hf
    norm_num [SimpleConfig.dynfee, hf]

/-- Concrete instantiation of `dynfee_level4_spec`: sample `{2: 1000}` with
a large ceiling gives 1500. -/
theorem dynfee_level4_spec_witness :
    SimpleConfig.dynfee 1000000 ⟨[], [], [(2, 1000)]⟩ 4 = .ok (some 1500) := by
  rw [(dynfee_level4_spec 1000000 ⟨[], [], [(2, 1000)]⟩).1 1000 rfl]
  norm_num

/-- C9 refutation: `dynfee(-1)` is outside the claimed level set {0..4} but
does not raise: Python negative indexing reads `FEE_TARGETS[-1] = 2` and
the 2-block sample is returned. -/
theorem dynfee_negative_level_no_error :
    SimpleConfig.dynfee 1000000 ⟨[], [], [(2, 1000)]⟩ (-1) = .ok (some 1000)
    ∧ ¬ ((-1 : Int) = 0 ∨ (-1 : Int) = 1 ∨ (-1 : Int) = 2 ∨ (-1 : Int) = 3
          ∨ (-1 : Int) = 4) := by
  constructor
  · show SimpleConfig.dynfee 1000000 ⟨[], [], [(2, 1000)]⟩ (-1) = .ok (some 1000)
    have hidx : pyIndex FEE_TARGETS (-1) = some 2 := rfl
    have hmin : min ((5 : ℚ) * 1000000) 1000 = 1000 := by norm_num
    simp [SimpleConfig.dynfee, hidx, PyDict.dget, hmin]
  · decide

/-- C9 (amended): `dynfee` raises exactly for levels at least 5 or at most
-5; levels -4..-1 are silently accepted through Python negative indexing,
returning the (clamped) sample for the confirmation target addressed from
the end of `FEE_TARGETS` instead of failing. -/
theorem dynfee_out_of_range_errors (MFR : ℚ) (st : SimpleConfig) (i : Int) :
    ((5 ≤ i ∨ i ≤ -5) → ∃ e, SimpleConfig.dynfee MFR st i = .error e)
    ∧ (-4 ≤ i → i ≤ -1 → ∃ j, pyIndex FEE_TARGETS i = some j
        ∧ SimpleConfig.dynfee MFR st i
          = .ok ((dget st.fee_estimates j).map (fun fee => min (5 * MFR) fee))) := by
  constructor
  · intro h
    rcases h with h5 | hm5
    · refine ⟨"AssertionError", ?_⟩
      have h1 : ¬ (i < 4) := by omega
      have h2 : ¬ (i = 4) := by omega
      simp [SimpleConfig.dynfee, h1, h2]
    · refine ⟨"IndexError: list index out of range", ?_⟩
      have h1 : i < 4 := by omega
      have hp : pyIndex FEE_TARGETS i = none := by
        have hn1 : ¬ (0 ≤ i) := by omega
        have hn2 : ¬ (0 ≤ i + (FEE_TARGETS.length : Int)) := by
          simp [FEE_TARGETS]
          omega
        simp [pyIndex, hn1, hn2]
      simp [SimpleConfig.dynfee, h1, hp]
  · intro hlo hhi
    interval_cases i
    · exact ⟨25, rfl, rfl⟩
    · exact ⟨10, rfl, rfl⟩
    · exact ⟨5, rfl, rfl⟩
    · exact ⟨2, rfl, rfl⟩

/-- Concrete instantiation of `dynfee_out_of_range_errors`: level 5 raises,
level -1 is accepted and maps to target 2. -/
theorem dynfee_out_of_range_errors_witness :
    (∃ e, SimpleConfig.dynfee 1000000 ⟨[], [], []⟩ 5 = .error e)
    ∧ (∃ j, pyIndex FEE_TARGETS (-1) = some j
        ∧ SimpleConfig.dynfee 1000000 ⟨[], [], []⟩ (-1)
          = .ok ((dget (SimpleConfig.fee_estimates ⟨[], [], []⟩) j).map
              (fun fee => min ((5 : ℚ) * 1000000) fee))) :=
  ⟨(dynfee_out_of_range_errors 1000000 ⟨[], [], []⟩ 5).1 (Or.inl (by norm_num)),
   (dynfee_out_of_range_errors 1000000 ⟨[], [], []⟩ (-1)).2 (by norm_num) (by norm_num)⟩

/-- C10: the source's inverted clamp sequence `min(0, index)` followed by
`max(10, index)` forces `static_fee_index` to return exactly 10 for every
argument whenever `max_fee_rate()` is a nonzero number (so that no
exception is raised); the result is independent of `value`. -/
theorem static_fee_index_constant_ten (MFR : ℚ) (st : SimpleConfig)
    (value m : ℚ) (hm : pyNum (st.max_fee_rate MFR) = some m) (hm0 : m ≠ 0) :
    SimpleConfig.static_fee_index MFR st value = .ok 10 := by
  have hclamp : max (10 : Int)
      (min 0 (pyIntTrunc ((value - m * (2 / 5)) / m * (3 / 50)))) = 10 :=
    max_eq_left (le_trans (min_le_left _ _) (by norm_num))
  simp [SimpleConfig.static_fee_index, hm, hm0, hclamp]

/-- Concrete instantiation of `static_fee_index_constant_ten`. -/
theorem static_fee_index_constant_ten_witness :
    SimpleConfig.static_fee_index 1000000 ⟨[], [], []⟩ 777 = .ok 10 :=
  static_fee_index_constant_ten 1000000 ⟨[], [], []⟩ 777 1000000 rfl
    (by norm_num)

theorem minBySnd_ne_none (x : Int × ℚ) (xs : List (Int × ℚ)) :
    minBySnd (x :: xs) ≠ none := by
  cases h : minBySnd xs <;> simp [minBySnd, h]

theorem minBySnd_first_min (xs : List (Int × ℚ)) (hne : xs ≠ []) :
    ∃ pre c post, xs = pre ++ c :: post ∧ minBySnd xs = some c
      ∧ (∀ y ∈ pre, c.2 < y.2) ∧ (∀ y ∈ xs, c.2 ≤ y.2) := by
  induction xs with
  | nil => exact absurd rfl hne
  | cons x rest ih =>
      cases hrest : minBySnd rest with
      | none =>
          have hre : rest = [] := by
            cases rest with
            | nil => rfl
            | cons y ys => exact absurd hrest (minBySnd_ne_none y ys)
          subst hre
          refine ⟨[], x, [], rfl, by simp [minBySnd], by simp, ?_⟩
          intro y hy
          rw [List.mem_singleton.mp hy]
      | some m =>
          obtain ⟨pre, c, post, hdec, hmin, hpre, hall⟩ := ih (by
            intro h
            rw [h] at hrest
            simp [minBySnd] at hrest)
          rw [hmin] at hrest
          injection hrest with hmc
          subst hmc
          by_cases hcx : c.2 < x.2
          · refine ⟨x :: pre, c, post, by rw [hdec]; rfl, ?_, ?_, ?_⟩
            · simp [minBySnd, hmin, hcx]
            · intro y hy
              rcases List.mem_cons.mp hy with hyx | hy'
              · rw [hyx]; exact hcx
              · exact hpre y hy'
            · intro y hy
              rcases List.mem_cons.mp hy with hyx | hy'
              · rw [hyx]; exact le_of_lt hcx
              · exact hall y hy'
          · refine ⟨[], x, rest, rfl, ?_, by simp, ?_⟩
            · simp [minBySnd, hmin, hcx]
            · intro y hy
              rcases List.mem_cons.mp hy with hyx | hy'
              · rw [hyx]
              · exact le_trans (not_lt.mp hcx) (hall y hy')

theorem distList_append_some (xs : List (Nat × ℚ)) (v t : ℚ) :
    distList (List.map (fun p => ((p.1 : Int), some p.2)) xs
        ++ [((1 : Int), some v)]) t
      = some (List.map (fun p => ((p.1 : Int), |p.2 - t|)) xs
        ++ [((1 : Int), |v - t|)]) := by
  induction xs with
  | nil => simp [distList]
  | cons p rest ih => simp [distList, ih]

/-- C7: with the 2-, 5- and 25-block samples present, `reverse_dynfee`
returns 5 directly when dynamic fees are enabled, the 25- and 5-block
samples are equal and the target is at least the 5-block sample; otherwise
it returns -1 when the target is below half the 25-block sample, and else
the confirmation target of the first candidate (the known samples in map
order followed by the synthetic pair `(1, dynfee(4))`) whose fee lies at
minimal absolute distance from the target, earlier candidates winning
ties. -/
theorem reverse_dynfee_spec (MFR : ℚ) (st : SimpleConfig) (t f2 f5 f25 : ℚ)
    (h2 : dget st.fee_estimates 2 = some f2)
    (h5 : dget st.fee_estimates 5 = some f5)
    (h25 : dget st.fee_estimates 25 = some f25) :
    (st.is_dynfee = true → f25 = f5 → f5 ≤ t →
        SimpleConfig.reverse_dynfee MFR st t = .ok 5)
    ∧ ((st.is_dynfee = false ∨ f25 ≠ f5 ∨ t < f5) →
        (t < f25 / 2 → SimpleConfig.reverse_dynfee MFR st t = .ok (-1))
        ∧ (f25 / 2 ≤ t →
            ∃ pre c post,
              List.map (fun p => ((p.1 : Int), |p.2 - t|)) st.fee_estimates
                  ++ [((1 : Int), |min (5 * MFR) (f2 + f2 / 2) - t|)]
                = pre ++ c :: post
              ∧ SimpleConfig.reverse_dynfee MFR st t = .ok c.1
              ∧ (∀ y ∈ pre, c.2 < y.2)
              ∧ (∀ y ∈ pre ++ c :: post, c.2 ≤ y.2))) := by
  have hd4 : SimpleConfig.dynfee MFR st 4
      = .ok (some (min (5 * MFR) (f2 + f2 / 2))) := by
    norm_num [SimpleConfig.dynfee, h2]
  have hdl := distList_append_some st.fee_estimates (min (5 * MFR) (f2 + f2 / 2)) t
  have hne : List.map (fun p => ((p.1 : Int), |p.2 - t|)) st.fee_estimates
      ++ [((1 : Int), |min (5 * MFR) (f2 + f2 / 2) - t|)] ≠ [] := by
    intro h
    have := congrArg List.length h
    simp at this
  obtain ⟨pre, c, post, hdec, hmin, hpre, hall⟩ := minBySnd_first_min _ hne
  have hscan : SimpleConfig.reverse_dynfee_scan MFR st t
      = .ok (if t < f25 / 2 then -1 else c.1) := by
    unfold SimpleConfig.reverse_dynfee_scan
    rw [hd4]
    simp only [hdl, hmin, h25]
  constructor
  · intro hdyn heq hle
    have hq : eqOptQ (some f25) (some f5) = true := by
      simp [eqOptQ, heq]
    have hstep : SimpleConfig.reverse_dynfee MFR st t =
        (if f5 ≤ t then .ok 5 else SimpleConfig.reverse_dynfee_scan MFR st t) := by
      simp [SimpleConfig.reverse_dynfee, hdyn, h25, h5, hq]
    rw [hstep, if_pos hle]
  · intro hneg
    have hred : SimpleConfig.reverse_dynfee MFR st t
        = SimpleConfig.reverse_dynfee_scan MFR st t := by
      rcases hneg with hf | hne25 | hlt
      · simp [SimpleConfig.reverse_dynfee, hf]
      · have hq : eqOptQ (dget st.fee_estimates 25) (dget st.fee_estimates 5)
            = false := by
          simp [h25, h5, eqOptQ, hne25]
        simp [SimpleConfig.reverse_dynfee, hq]
      · by_cases hAB : (st.is_dynfee
            && eqOptQ (dget st.fee_estimates 25) (dget st.fee_estimates 5)) = true
        · simp only [SimpleConfig.reverse_dynfee, hAB, if_true, h5]
          simp [not_le.mpr hlt]
        · simp [SimpleConfig.reverse_dynfee, hAB]
    constructor
    · intro hlt25
      rw [hred, hscan, if_pos hlt25]
    · intro hge25
      refine ⟨pre, c, post, hdec, ?_, hpre, ?_⟩
      · rw [hred, hscan, if_neg (not_lt.mpr hge25)]
      · rw [← hdec]
        exact hall

/-- Concrete instantiation of `reverse_dynfee_spec`: dynamic fees enabled,
25- and 5-block samples both 500, target 600 yields level 5. -/
theorem reverse_dynfee_spec_witness :
    SimpleConfig.reverse_dynfee 1000000
      ⟨[], [("dynamic_fees", JVal.bool true)],
        [(2, 100), (5, 500), (10, 400), (25, 500)]⟩ 600 = .ok 5 :=
  (reverse_dynfee_spec 1000000
      ⟨[], [("dynamic_fees", JVal.bool true)],
        [(2, 100), (5, 500), (10, 400), (25, 500)]⟩ 600 100 500 500
      rfl rfl rfl).1 rfl rfl (by norm_num)
